import Mathlib

/-!
Verification of the openworkers-core crate: a shallow embedding of its
HTTP data model (src/http.rs), termination taxonomy (src/termination.rs),
operation-delegation bus (src/ops.rs), task/event lifecycle (src/task.rs)
and binding-limit configuration (src/limits.rs), with theorems settling
the behavioural claims made about them.

Bytes (`bytes::Bytes`) are modelled as `List Nat`, strings as Lean
`String` except where character-level case reasoning is needed
(HTTP method parsing), where `List Char` is used.
-/

set_option maxHeartbeats 1000000

namespace Openworkers

/-- A buffered byte payload (`bytes::Bytes`), one `Nat` per byte. -/
abbrev Bytes := List Nat

/-! ## HTTP method (src/http.rs, `HttpMethod`) -/

/-- Rust `HttpMethod`: closed enum of the 7 verbs. -/
inductive HttpMethod where
  | get
  | post
  | put
  | delete
  | patch
  | head
  | options
deriving DecidableEq, Repr

/-- ASCII uppercasing of one character: `a`..`z` map to `A`..`Z`,
everything else is unchanged. This is the "ASCII case" the claims speak
of (the claim-side notion), not the model of the source's
`to_uppercase` — that is `charUppercase` below. -/
def upcaseChar (c : Char) : Char :=
  if 'a' ≤ c ∧ c ≤ 'z' then Char.ofNat (c.toNat - 32) else c

/-- ASCII uppercasing of a string, character by character (claim-side,
see `upcaseChar`). -/
def toUpperAscii (s : List Char) : List Char :=
  s.map upcaseChar

/-- Two strings are equal up to ASCII case (the claim's notion of
case-insensitive equality). -/
def eqIgnoreAsciiCase (s t : List Char) : Prop :=
  toUpperAscii s = toUpperAscii t

instance (s t : List Char) : Decidable (eqIgnoreAsciiCase s t) := by
  unfold eqIgnoreAsciiCase; infer_instance

/-- Rust `char::to_uppercase`, as `str::to_uppercase` applies it in
`from_str` (src/http.rs line 37): the full Unicode uppercasing, which
maps a character to a string. Modelled fragment: ASCII characters
exactly (`a`..`z` to `A`..`Z`, other ASCII fixed), the two non-ASCII
characters whose Unicode uppercase is a single ASCII letter — `'ſ'`
(U+017F, to `S`) and `'ı'` (U+0131, to `I`) — and `'ß'` (U+00DF, to
`SS`) as a multi-character expansion. Characters outside this fragment
are left fixed, which can understate what the program accepts on them;
every theorem below evaluates this model only inside the fragment (the
amended C5 statement restricts its quantifier to ASCII strings, and the
concrete inputs of the other method theorems are in the fragment). -/
def charUppercase (c : Char) : List Char :=
  if 'a' ≤ c ∧ c ≤ 'z' then [Char.ofNat (c.toNat - 32)]
  else if c = 'ſ' then ['S']
  else if c = 'ı' then ['I']
  else if c = 'ß' then ['S', 'S']
  else [c]

/-- Rust `str::to_uppercase` on the modelled fragment: the concatenation
of the per-character Unicode uppercasings. -/
def toUppercaseRust (s : List Char) : List Char :=
  (s.map charUppercase).flatten

/-- Every character of the string is ASCII. On such strings
`toUppercaseRust` agrees exactly with the program's `to_uppercase`. -/
def allAscii (s : List Char) : Prop :=
  ∀ c ∈ s, c.toNat < 128

instance (s : List Char) : Decidable (allAscii s) := by
  unfold allAscii; infer_instance

/-- Rust `HttpMethod::as_str` (src/http.rs lines 20-30). -/
def HttpMethod.as_str : HttpMethod → List Char
  | .get => ['G', 'E', 'T']
  | .post => ['P', 'O', 'S', 'T']
  | .put => ['P', 'U', 'T']
  | .delete => ['D', 'E', 'L', 'E', 'T', 'E']
  | .patch => ['P', 'A', 'T', 'C', 'H']
  | .head => ['H', 'E', 'A', 'D']
  | .options => ['O', 'P', 'T', 'I', 'O', 'N', 'S']

/-- Rust `<HttpMethod as FromStr>::from_str` (src/http.rs lines 36-47):
uppercase the input with the Unicode `to_uppercase` (modelled by
`toUppercaseRust`), then match it against the 7 verb strings; anything
else is `Err(())`. -/
def HttpMethod.from_str (s : List Char) : Except Unit HttpMethod :=
  let u := toUppercaseRust s
  if u = ['G', 'E', 'T'] then .ok .get
  else if u = ['P', 'O', 'S', 'T'] then .ok .post
  else if u = ['P', 'U', 'T'] then .ok .put
  else if u = ['D', 'E', 'L', 'E', 'T', 'E'] then .ok .delete
  else if u = ['P', 'A', 'T', 'C', 'H'] then .ok .patch
  else if u = ['H', 'E', 'A', 'D'] then .ok .head
  else if u = ['O', 'P', 'T', 'I', 'O', 'N', 'S'] then .ok .options
  else .error ()

/-! ## HTTP requests, responses and bodies (src/http.rs) -/

/-- Rust `RequestBody`: `None` or a fully buffered payload. -/
inductive RequestBody where
  | none
  | bytes (b : Bytes)
deriving DecidableEq, Repr

/-- Rust `HttpRequest`: method, absolute URL, header map, buffered body.
The `HashMap` of headers is modelled as an association list. -/
structure HttpRequest where
  method : HttpMethod
  url : String
  headers : List (String × String)
  body : RequestBody
deriving Repr

/-- One element of a streaming response body channel: an `Ok` chunk of
bytes or an `Err` message, exactly as the `mpsc` channel in the source
carries `Result<Bytes, String>`. -/
abbrev StreamItem := Except String Bytes

/-- Rust `ResponseBody`: `None`, buffered `Bytes`, or a `Stream`. The
stream's `mpsc::Receiver` is modelled by the finite list of items the
producer sent before closing the channel, in emission order. -/
inductive ResponseBody where
  | none
  | bytes (b : Bytes)
  | stream (elems : List StreamItem)

/-- The `Ok` chunks of a stream, in order (the `if let Ok(bytes) = result`
filter of the source's receive loop). -/
def okChunks (elems : List StreamItem) : List Bytes :=
  elems.filterMap fun r =>
    match r with
    | .ok b => some b
    | .error _ => Option.none

/-- Rust `ResponseBody::collect` (src/http.rs lines 147-166): `None` and
`Bytes` pass through; a `Stream` is drained to the end of the channel,
keeping every `Ok` chunk and discarding `Err` items, then the kept chunks
are concatenated — except that an empty chunk list yields `None`. -/
def ResponseBody.collect : ResponseBody → Option Bytes
  | .none => Option.none
  | .bytes b => some b
  | .stream elems =>
    let chunks := okChunks elems
    if chunks.isEmpty then Option.none else some chunks.flatten

/-- Rust `HttpResponse`: status, ordered header pairs, body. -/
structure HttpResponse where
  status : Nat
  headers : List (String × String)
  body : ResponseBody

/-! ## Termination taxonomy (src/termination.rs) -/

/-- Rust `TerminationReason`: the closed failure-reason set. -/
inductive TerminationReason where
  | cpuTimeLimit
  | wallClockTimeout
  | memoryLimit
  | exception (msg : String)
  | initializationError (msg : String)
  | terminated
  | aborted
  | other (msg : String)
deriving DecidableEq, Repr

/-- Rust `TerminationReason::description` (src/termination.rs lines
60-71): fixed strings for the payload-free variants, the carried message
verbatim for `Exception`, `InitializationError` and `Other`. -/
def TerminationReason.description : TerminationReason → String
  | .cpuTimeLimit => "Worker exceeded CPU time limit"
  | .wallClockTimeout => "Worker exceeded wall-clock time limit"
  | .memoryLimit => "Worker exceeded memory limit"
  | .exception msg => msg
  | .initializationError msg => msg
  | .terminated => "Worker was terminated"
  | .aborted => "Worker was aborted"
  | .other msg => msg

/-- Rust `TerminationReason::http_status` (src/termination.rs lines
74-81). -/
def TerminationReason.http_status : TerminationReason → Nat
  | .cpuTimeLimit | .memoryLimit => 429
  | .wallClockTimeout => 504
  | .exception _ | .initializationError _ | .other _ => 500
  | .terminated | .aborted => 503

/-! ## Log levels (src/log.rs) -/

/-- Rust `LogLevel`. -/
inductive LogLevel where
  | error
  | warn
  | info
  | log
  | debug
  | trace
deriving DecidableEq, Repr

/-- The `{:?}` (derive Debug) rendering of a `LogLevel`, used by the
default log handler's `eprintln!`. -/
def LogLevel.debugStr : LogLevel → String
  | .error => "Error"
  | .warn => "Warn"
  | .info => "Info"
  | .log => "Log"
  | .debug => "Debug"
  | .trace => "Trace"

/-! ## Operation delegation bus (src/ops.rs) -/

/-- Rust `StorageOp`. -/
inductive StorageOp where
  | get (key : String)
  | put (key : String) (body : Bytes)
  | head (key : String)
  | list (pre : Option String) (limit : Option Nat)
  | delete (key : String)
deriving Repr

/-- Rust `StorageResult`. -/
inductive StorageResult where
  | body (b : Option Bytes)
  | head (size : Nat) (etag : Option String)
  | list (keys : List String) (truncated : Bool)
  | error (msg : String)
deriving Repr

/-- Rust `DatabaseOp`. -/
inductive DatabaseOp where
  | query (sql : String) (params : List String)
deriving Repr

/-- Rust `DatabaseResult`. -/
inductive DatabaseResult where
  | rows (r : String)
  | error (msg : String)
deriving Repr

/-- Rust `KvOp`. -/
inductive KvOp where
  | get (key : String)
  | put (key : String) (value : String) (expires_in : Option Nat)
  | delete (key : String)
  | list (pre : Option String) (limit : Option Nat)
deriving Repr

/-- Rust `KvResult`. -/
inductive KvResult where
  | value (v : Option String)
  | keys (ks : List String)
  | ok
  | error (msg : String)
deriving Repr

/-- Rust `Operation` (src/ops.rs lines 114-160): the closed tagged union
of everything a runtime can delegate to the runner. -/
inductive Operation where
  | fetch (request : HttpRequest)
  | bindingFetch (binding : String) (request : HttpRequest)
  | bindingStorage (binding : String) (op : StorageOp)
  | bindingKv (binding : String) (op : KvOp)
  | bindingDatabase (binding : String) (op : DatabaseOp)
  | bindingWorker (binding : String) (request : HttpRequest)
  | log (level : LogLevel) (message : String)

/-- Rust `OperationResult` (src/ops.rs lines 163-178). -/
inductive OperationResult where
  | http (r : Except String HttpResponse)
  | storage (r : StorageResult)
  | kv (r : KvResult)
  | database (r : DatabaseResult)
  | ack

/-- Rust trait `OperationsHandler` (src/ops.rs lines 202-301) modelled as
a record of the seven per-capability methods; each field's default value
is the trait's default method body (the async wrappers are dropped, the
returned values kept verbatim). The default `handle_log` prints
`[{:?}] {message}` to stderr; the model returns that line. -/
structure OperationsHandler where
  handle_fetch : HttpRequest → Except String HttpResponse :=
    fun _ => .error "Fetch not available"
  handle_binding_fetch : String → HttpRequest → Except String HttpResponse :=
    fun binding _ => .error ("Binding '" ++ binding ++ "' not configured")
  handle_binding_storage : String → StorageOp → StorageResult :=
    fun binding _ => .error ("Storage binding '" ++ binding ++ "' not implemented")
  handle_binding_kv : String → KvOp → KvResult :=
    fun binding _ => .error ("KV binding '" ++ binding ++ "' not implemented")
  handle_binding_database : String → DatabaseOp → DatabaseResult :=
    fun binding _ => .error ("Database binding '" ++ binding ++ "' not implemented")
  handle_binding_worker : String → HttpRequest → Except String HttpResponse :=
    fun binding _ => .error ("Worker binding '" ++ binding ++ "' not implemented")
  handle_log : LogLevel → String → String :=
    fun level message => "[" ++ level.debugStr ++ "] " ++ message

/-- Rust `OperationsHandler::handle` (src/ops.rs lines 273-300): total
dispatch of an `Operation` to the matching method; `Log` is dispatched
for its effect and acknowledged with `Ack`. -/
def OperationsHandler.handle (h : OperationsHandler) : Operation → OperationResult
  | .fetch request => .http (h.handle_fetch request)
  | .bindingFetch binding request => .http (h.handle_binding_fetch binding request)
  | .bindingStorage binding op => .storage (h.handle_binding_storage binding op)
  | .bindingKv binding op => .kv (h.handle_binding_kv binding op)
  | .bindingDatabase binding op => .database (h.handle_binding_database binding op)
  | .bindingWorker binding request => .http (h.handle_binding_worker binding request)
  | .log level message =>
    let _ := h.handle_log level message
    .ack

/-- Rust `DefaultOps` (src/ops.rs lines 313-315): the stub handler that
overrides nothing, so every field keeps its default. -/
def DefaultOps : OperationsHandler := {}

/-! ## Task / Event lifecycle (src/task.rs) -/

/-- `serde_json::Value` modelled opaquely: no claim inspects the JSON
structure of a payload. -/
structure JsonValue where
  raw : String
deriving DecidableEq, Repr

/-- The eventual fate of a oneshot completion sender.
Modelled from the spec: the completion channel itself is
`tokio::sync::oneshot`, outside this crate; the spec requires that the
sender is either consumed by exactly one send or dropped without
sending, so a sender end is identified with that eventual fate. -/
inductive SenderFate (α : Type) where
  | sent (a : α)
  | dropped

/-- What a completion receiver can observe.
Modelled from the spec: a sent value, or the distinct `Abandoned` fault
when the sender was dropped without sending — never a hang and never an
empty result. -/
inductive RecvOutcome (α : Type) where
  | value (a : α)
  | abandoned

/-- The receiving end of a oneshot channel, tied to the fate of the one
sender it was created with. -/
structure Receiver (α : Type) where
  fate : SenderFate α

/-- Modelled from the spec: awaiting the receiver observes the sent value
when the sender sent one, and the `Abandoned` fault when the sender was
dropped without sending. -/
def Receiver.recv {α : Type} (rx : Receiver α) : RecvOutcome α :=
  match rx.fate with
  | .sent a => .value a
  | .dropped => .abandoned

/-- Rust `FetchInit` (src/task.rs lines 12-15): the request plus the
response sender (`res_tx`, identified with its eventual fate). -/
structure FetchInit where
  req : HttpRequest
  res_tx : SenderFate HttpResponse

/-- Rust `TaskSource` (src/task.rs lines 37-67). -/
inductive TaskSource where
  | schedule (time : Nat)
  | chained (parent_task_id : String) (parent_worker_id : String)
      (parent_worker_name : Option String)
  | worker (worker_id : String) (worker_name : Option String)
  | invoke (origin : Option String)
deriving Repr

/-- Rust `TaskResult` (src/task.rs lines 71-80). -/
structure TaskResult where
  success : Bool
  data : Option JsonValue
  error : Option String
deriving Repr

/-- Rust `TaskInit` (src/task.rs lines 119-130). -/
structure TaskInit where
  task_id : String
  payload : Option JsonValue
  source : Option TaskSource
  attempt : Nat
  res_tx : SenderFate TaskResult

/-- Rust `Event` (src/task.rs lines 181-186). -/
inductive Event where
  | Fetch (init : Option FetchInit)
  | Task (init : Option TaskInit)

/-- Rust `Event::fetch` (src/task.rs lines 197-200): create a oneshot
channel, store the sender in the `FetchInit`, return the event with the
paired receiver. The fresh channel is modelled by the `fate` parameter:
the sender end placed in the event and the receiver end returned are the
two ends of that one channel, so they share the one fate. -/
def Event.fetch (req : HttpRequest) (fate : SenderFate HttpResponse) :
    Event × Receiver HttpResponse :=
  (Event.Fetch (some { req := req, res_tx := fate }), { fate := fate })

/-- Rust `Event::task` (src/task.rs lines 203-214): create a oneshot
channel, store the sender in the `TaskInit`, return the event with the
paired receiver (channel modelled as in `Event.fetch`). -/
def Event.task (task_id : String) (payload : Option JsonValue)
    (source : Option TaskSource) (attempt : Nat)
    (fate : SenderFate TaskResult) : Event × Receiver TaskResult :=
  (Event.Task (some { task_id, payload, source, attempt, res_tx := fate }),
   { fate := fate })

/-! ## Binding limits (src/limits.rs) -/

/-- Rust `BindingLimit` (src/limits.rs lines 3-8): per-capability quota
configuration; `0` means unlimited. -/
structure BindingLimit where
  max_total : Nat
  max_concurrent : Nat
deriving DecidableEq, Repr

/-- Rust `BindingLimit::new`. -/
def BindingLimit.new (max_total max_concurrent : Nat) : BindingLimit :=
  { max_total := max_total, max_concurrent := max_concurrent }

/-- Rust `BindingLimit::unlimited`. -/
def BindingLimit.unlimited : BindingLimit :=
  { max_total := 0, max_concurrent := 0 }

/-- Modelled from the spec: enforcement of `max_total` for one KV call on
one binding's scope (the enforcement code lives in the runtime crates,
only the `BindingLimit` configuration is in this crate). `used` is the
scope's cumulative call counter; when `max_total` is nonzero and already
reached, the call is rejected with an explicit over-quota `Error` and not
executed; otherwise `exec` performs it and the counter advances. -/
def kvGuardedCall (limit : BindingLimit) (used : Nat)
    (exec : KvOp → KvResult) (op : KvOp) : KvResult × Nat :=
  if limit.max_total ≠ 0 ∧ limit.max_total ≤ used then
    (KvResult.error "KV binding call limit exceeded", used)
  else
    (exec op, used + 1)

/-- Modelled from the spec: a sequence of guarded KV calls issued one
after the other on the same binding scope, threading the cumulative
counter. -/
def kvRunCalls (limit : BindingLimit) (used : Nat)
    (exec : KvOp → KvResult) : List KvOp → List KvResult × Nat
  | [] => ([], used)
  | op :: ops =>
    let step := kvGuardedCall limit used exec op
    let rest := kvRunCalls limit step.2 exec ops
    (step.1 :: rest.1, rest.2)

/-! ## Theorems -/

/-- C2: `TerminationReason → HTTP status` is total over all eight
variants and fixed: `CpuTimeLimit` and `MemoryLimit` map to 429,
`WallClockTimeout` to 504, `Exception(_)`, `InitializationError(_)` and
`Other(_)` to 500, `Terminated` and `Aborted` to 503. -/
theorem termination_http_status_table (s t u : String) :
    TerminationReason.http_status .cpuTimeLimit = 429 ∧
    TerminationReason.http_status .memoryLimit = 429 ∧
    TerminationReason.http_status .wallClockTimeout = 504 ∧
    TerminationReason.http_status (.exception s) = 500 ∧
    TerminationReason.http_status (.initializationError t) = 500 ∧
    TerminationReason.http_status (.other u) = 500 ∧
    TerminationReason.http_status .terminated = 503 ∧
    TerminationReason.http_status .aborted = 503 :=
  ⟨rfl, rfl, rfl, rfl, rfl, rfl, rfl, rfl⟩

/-- C8 counterexample: the description of `InitializationError` is not a
fixed constant string — it varies with the carried message, so the claim
that every variant other than `Exception` has a constant description is
false at the concrete inputs `InitializationError "a"` and
`InitializationError "b"`. -/
theorem description_not_fixed_cex :
    TerminationReason.description (.initializationError "a") ≠
      TerminationReason.description (.initializationError "b") := by
  decide

/-- C8 (amended): the human-readable description is the verbatim carried
message for `Exception`, `InitializationError` and `Other`, and a fixed
constant string for each of the five payload-free variants. -/
theorem description_per_variant (msg : String) :
    TerminationReason.description (.exception msg) = msg ∧
    TerminationReason.description (.initializationError msg) = msg ∧
    TerminationReason.description (.other msg) = msg ∧
    TerminationReason.description .cpuTimeLimit = "Worker exceeded CPU time limit" ∧
    TerminationReason.description .wallClockTimeout = "Worker exceeded wall-clock time limit" ∧
    TerminationReason.description .memoryLimit = "Worker exceeded memory limit" ∧
    TerminationReason.description .terminated = "Worker was terminated" ∧
    TerminationReason.description .aborted = "Worker was aborted" :=
  ⟨rfl, rfl, rfl, rfl, rfl, rfl, rfl, rfl⟩

/-- C6: dispatch through a handler overriding no methods is total with
safe defaults — `Fetch` yields `Http(Err("Fetch not available"))`, `Log`
yields `Ack`, and every binding variant yields its category's result
carrying an explicit `Error` payload naming the binding. -/
theorem default_ops_dispatch_safe (req wreq : HttpRequest) (level : LogLevel)
    (message b : String) (sop : StorageOp) (kop : KvOp) (dop : DatabaseOp) :
    DefaultOps.handle (.fetch req) = .http (.error "Fetch not available") ∧
    DefaultOps.handle (.log level message) = .ack ∧
    DefaultOps.handle (.bindingFetch b req) =
      .http (.error ("Binding '" ++ b ++ "' not configured")) ∧
    DefaultOps.handle (.bindingStorage b sop) =
      .storage (.error ("Storage binding '" ++ b ++ "' not implemented")) ∧
    DefaultOps.handle (.bindingKv b kop) =
      .kv (.error ("KV binding '" ++ b ++ "' not implemented")) ∧
    DefaultOps.handle (.bindingDatabase b dop) =
      .database (.error ("Database binding '" ++ b ++ "' not implemented")) ∧
    DefaultOps.handle (.bindingWorker b wreq) =
      .http (.error ("Worker binding '" ++ b ++ "' not implemented")) :=
  ⟨rfl, rfl, rfl, rfl, rfl, rfl, rfl⟩

/-- The seven verb strings are fixed points of ASCII uppercasing. -/
theorem toUpperAscii_as_str (m : HttpMethod) :
    toUpperAscii m.as_str = m.as_str := by
  cases m <;> rfl

/-- Every character of a verb string is ASCII. -/
theorem as_str_ascii (m : HttpMethod) : allAscii m.as_str := by
  cases m <;> decide

/-- Parsing succeeds with verdict `m` exactly when the Unicode-uppercased
input is `m`'s verb string. -/
theorem from_str_eq_ok_iff (s : List Char) (m : HttpMethod) :
    HttpMethod.from_str s = .ok m ↔ toUppercaseRust s = m.as_str := by
  cases m <;>
    simp only [HttpMethod.from_str, HttpMethod.as_str] <;>
    split_ifs with h1 h2 h3 h4 h5 h6 h7 <;>
    simp_all

/-- A string equal to a verb up to ASCII case is all ASCII (the ASCII
uppercase of a character is an ASCII letter only when the character
itself is ASCII). -/
theorem eqIgnoreAsciiCase_allAscii (s : List Char) (m : HttpMethod)
    (h : eqIgnoreAsciiCase s m.as_str) : allAscii s := by
  have hs : toUpperAscii s = m.as_str := by
    unfold eqIgnoreAsciiCase at h
    rw [toUpperAscii_as_str] at h
    exact h
  intro c hc
  have hmem : upcaseChar c ∈ m.as_str := by
    rw [← hs]
    exact List.mem_map_of_mem upcaseChar hc
  have hd : (upcaseChar c).toNat < 128 := as_str_ascii m _ hmem
  by_cases hz : 'a' ≤ c ∧ c ≤ 'z'
  · have hle : c.toNat ≤ 122 := hz.2
    omega
  · unfold upcaseChar at hd
    rw [if_neg hz] at hd
    exact hd

/-- On ASCII strings the modelled Unicode uppercasing agrees with plain
ASCII uppercasing. -/
theorem toUppercaseRust_eq_ascii (s : List Char) (h : allAscii s) :
    toUppercaseRust s = toUpperAscii s := by
  induction s with
  | nil => rfl
  | cons c s ih =>
    have hc : c.toNat < 128 := h c (List.mem_cons_self c s)
    have hs : allAscii s := fun d hd => h d (List.mem_cons_of_mem c hd)
    have hcc : charUppercase c = [upcaseChar c] := by
      by_cases hz : 'a' ≤ c ∧ c ≤ 'z'
      · simp [charUppercase, upcaseChar, hz]
      · have h1 : c ≠ 'ſ' := by
          rintro rfl
          exact absurd hc (by decide)
        have h2 : c ≠ 'ı' := by
          rintro rfl
          exact absurd hc (by decide)
        have h3 : c ≠ 'ß' := by
          rintro rfl
          exact absurd hc (by decide)
        simp [charUppercase, upcaseChar, hz, h1, h2, h3]
    unfold toUppercaseRust toUpperAscii at ih ⊢
    rw [List.map_cons, List.flatten_cons, hcc, List.map_cons, ih hs]
    rfl

/-- C5 counterexample: the program's `to_uppercase` is the Unicode one,
so the non-ASCII string `poſt` (with the long s, U+017F) parses to
`Post` although it does not equal `POST` up to ASCII case — refuting
the claim that every string other than the ASCII-case-equal ones fails
to parse. -/
theorem method_parse_unicode_cex :
    HttpMethod.from_str ['p', 'o', 'ſ', 't'] = .ok .post ∧
    ¬ eqIgnoreAsciiCase ['p', 'o', 'ſ', 't'] (HttpMethod.as_str .post) :=
  ⟨rfl, by decide⟩

/-- C5 (amended): every string equal to one of the 7 verbs up to ASCII
case parses to that verb's variant; restricted to ASCII strings the
equivalence is exact in both directions, and parsing fails precisely on
the ASCII strings matching no verb (a non-ASCII string may additionally
parse when its Unicode uppercasing is a verb string). -/
theorem method_parse_case_insensitive (s : List Char) :
    (∀ m : HttpMethod, eqIgnoreAsciiCase s m.as_str →
      HttpMethod.from_str s = .ok m) ∧
    (allAscii s → ∀ m : HttpMethod,
      (eqIgnoreAsciiCase s m.as_str ↔ HttpMethod.from_str s = .ok m)) ∧
    (allAscii s → (HttpMethod.from_str s = .error () ↔
      ∀ m : HttpMethod, ¬ eqIgnoreAsciiCase s m.as_str)) := by
  have fwd : ∀ m : HttpMethod, eqIgnoreAsciiCase s m.as_str →
      HttpMethod.from_str s = .ok m := by
    intro m hcase
    have hascii := eqIgnoreAsciiCase_allAscii s m hcase
    have hs : toUpperAscii s = m.as_str := by
      unfold eqIgnoreAsciiCase at hcase
      rw [toUpperAscii_as_str] at hcase
      exact hcase
    exact (from_str_eq_ok_iff s m).2 ((toUppercaseRust_eq_ascii s hascii).trans hs)
  have key : allAscii s → ∀ m : HttpMethod,
      (eqIgnoreAsciiCase s m.as_str ↔ HttpMethod.from_str s = .ok m) := by
    intro hascii m
    refine ⟨fwd m, fun hok => ?_⟩
    have hu := (from_str_eq_ok_iff s m).1 hok
    rw [toUppercaseRust_eq_ascii s hascii] at hu
    unfold eqIgnoreAsciiCase
    rw [toUpperAscii_as_str]
    exact hu
  refine ⟨fwd, key, fun hascii => ⟨?_, ?_⟩⟩
  · intro herr m hcase
    have hok := fwd m hcase
    rw [hok] at herr
    exact absurd herr (by simp)
  · intro hall
    rcases hfs : HttpMethod.from_str s with u | m
    · cases u
      rfl
    · exact absurd ((key hascii m).2 hfs) (hall m)

/-- C5 witness: the mixed-case ASCII string `gEt` is ASCII and parses to
`Get`. -/
theorem method_parse_case_insensitive_witness :
    allAscii ['g', 'E', 't'] ∧
    HttpMethod.from_str ['g', 'E', 't'] = .ok .get :=
  ⟨by decide,
    (method_parse_case_insensitive ['g', 'E', 't']).1 .get (by decide)⟩

/-- C9: serialization and parsing of methods round-trip, and `as_str` is
injective over the 7 variants. -/
theorem method_roundtrip (m1 m2 : HttpMethod) :
    HttpMethod.from_str m1.as_str = .ok m1 ∧
    (m1.as_str = m2.as_str ↔ m1 = m2) := by
  constructor
  · cases m1 <;> rfl
  · constructor
    · intro h
      cases m1 <;> cases m2 <;> first
        | rfl
        | exact absurd h (by decide)
    · intro h
      rw [h]

/-- A stream of `Ok` chunks only keeps exactly those chunks. -/
theorem okChunks_map_ok (l : List Bytes) : okChunks (l.map .ok) = l := by
  induction l with
  | nil => rfl
  | cons b l ih =>
    simp only [List.map_cons, okChunks, List.filterMap_cons] at *
    rw [ih]

/-- C3 counterexample: a stream with an `Ok [1]` chunk, then an error
marker, then an `Ok [2]` chunk collects to `[1, 2]` — the chunk after
the marker is read and kept, so `collect` does not stop at the marker. -/
theorem collect_error_marker_cex :
    ResponseBody.collect (.stream [.ok [1], .error "boom", .ok [2]]) =
      some [1, 2] ∧
    some ([1, 2] : Bytes) ≠ some [1] :=
  ⟨rfl, by decide⟩

/-- C3 (amended): for a stream with `Ok` chunks before an error marker
and arbitrary further elements after it, `collect` drains the whole
sequence: it returns the concatenation of the chunks before the marker
and every `Ok` chunk after it, discarding error markers (and `None` when
there is no `Ok` chunk at all). -/
theorem collect_reads_past_error (pre : List Bytes) (e : String)
    (post : List StreamItem) :
    ResponseBody.collect (.stream (pre.map .ok ++ .error e :: post)) =
      (if (pre ++ okChunks post).isEmpty then Option.none
       else some (pre ++ okChunks post).flatten) := by
  have h : okChunks (pre.map .ok ++ .error e :: post) = pre ++ okChunks post := by
    have hmap := okChunks_map_ok pre
    simp only [okChunks, List.filterMap_append, List.filterMap_cons] at *
    rw [hmap]
  simp only [ResponseBody.collect, h]

/-- C4 counterexample: the cleanly-closed stream of zero chunks collects
to `None`, not to `Some` of the (empty) concatenation. -/
theorem collect_clean_empty_cex :
    ResponseBody.collect (.stream ([] : List StreamItem)) = Option.none ∧
    (Option.none : Option Bytes) ≠ some [] :=
  ⟨rfl, by decide⟩

/-- C4 (amended): for every cleanly-closed stream of N ≥ 1 chunks,
`collect` returns `Some` of the exact concatenation of the chunks in
emission order; the stream of zero chunks collects to `None`. -/
theorem collect_clean_concat (chunks : List Bytes) :
    (chunks = [] →
      ResponseBody.collect (.stream (chunks.map .ok)) = Option.none) ∧
    (chunks ≠ [] →
      ResponseBody.collect (.stream (chunks.map .ok)) = some chunks.flatten) := by
  have h : okChunks (chunks.map .ok) = chunks := okChunks_map_ok chunks
  constructor
  · intro he
    subst he
    rfl
  · intro hne
    simp [ResponseBody.collect, h, hne]

/-- C4 witness: a concrete clean two-chunk stream collects to the
concatenation. -/
theorem collect_clean_concat_witness :
    ([[1], [2, 3]] : List Bytes) ≠ [] ∧
    ResponseBody.collect (.stream (([[1], [2, 3]] : List Bytes).map .ok)) =
      some [1, 2, 3] :=
  ⟨by decide, (collect_clean_concat [[1], [2, 3]]).2 (by decide)⟩

/-- C10: `collect` edge behaviour — `None` collects to `None`, `Bytes b`
to `Some b` unchanged, and a stream with zero `Ok` chunks (empty, or
error markers only) to `None` rather than `Some` of empty bytes. -/
theorem collect_edge_cases (b : Bytes) (elems : List StreamItem) :
    ResponseBody.collect .none = Option.none ∧
    ResponseBody.collect (.bytes b) = some b ∧
    (okChunks elems = [] →
      ResponseBody.collect (.stream elems) = Option.none) := by
  refine ⟨rfl, rfl, fun h => ?_⟩
  simp [ResponseBody.collect, h]

/-- C10 witness: a stream holding only an error marker collects to
`None`. -/
theorem collect_edge_cases_witness :
    okChunks [(.error "x" : StreamItem)] = [] ∧
    ResponseBody.collect (.stream [(.error "x" : StreamItem)]) = Option.none :=
  ⟨rfl, (collect_edge_cases [] [(.error "x" : StreamItem)]).2.2 rfl⟩

/-- C1: both event constructors pair the completion sender atomically
with its receiver (the two ends share one channel fate), and the
receiver observes exactly one outcome — for a task: a success result, a
failure result, or the distinct `Abandoned` fault; never zero outcomes
and never more than one. -/
theorem event_completion_exactly_once (req : HttpRequest)
    (ffate : SenderFate HttpResponse) (tid : String)
    (payload : Option JsonValue) (src : Option TaskSource) (att : Nat)
    (tfate : SenderFate TaskResult) :
    (Event.fetch req ffate).1 = Event.Fetch (some { req := req, res_tx := ffate }) ∧
    (Event.fetch req ffate).2 = { fate := ffate } ∧
    (Event.task tid payload src att tfate).1 = Event.Task (some { task_id := tid, payload := payload, source := src, attempt := att, res_tx := tfate }) ∧
    (Event.task tid payload src att tfate).2 = { fate := tfate } ∧
    ((∃ r, (Event.fetch req ffate).2.recv = RecvOutcome.value r) ∨
      (Event.fetch req ffate).2.recv = RecvOutcome.abandoned) ∧
    ¬((∃ r, (Event.fetch req ffate).2.recv = RecvOutcome.value r) ∧
      (Event.fetch req ffate).2.recv = RecvOutcome.abandoned) ∧
    ((∃ tr, (Event.task tid payload src att tfate).2.recv = RecvOutcome.value tr ∧
        tr.success = true) ∨
      (∃ tr, (Event.task tid payload src att tfate).2.recv = RecvOutcome.value tr ∧
        tr.success = false) ∨
      (Event.task tid payload src att tfate).2.recv = RecvOutcome.abandoned) ∧
    ¬((∃ tr, (Event.task tid payload src att tfate).2.recv = RecvOutcome.value tr ∧
        tr.success = true) ∧
      (∃ tr, (Event.task tid payload src att tfate).2.recv = RecvOutcome.value tr ∧
        tr.success = false)) ∧
    ¬((∃ tr, (Event.task tid payload src att tfate).2.recv = RecvOutcome.value tr ∧
        tr.success = true) ∧
      (Event.task tid payload src att tfate).2.recv = RecvOutcome.abandoned) ∧
    ¬((∃ tr, (Event.task tid payload src att tfate).2.recv = RecvOutcome.value tr ∧
        tr.success = false) ∧
      (Event.task tid payload src att tfate).2.recv = RecvOutcome.abandoned) := by
  refine ⟨rfl, rfl, rfl, rfl, ?_, ?_, ?_, ?_, ?_, ?_⟩ <;>
    cases ffate <;> cases tfate <;>
    simp [Event.fetch, Event.task, Receiver.recv]

/-- The cumulative counter of a guarded call sequence never exceeds a
nonzero `max_total`. -/
theorem kvRunCalls_le (limit : BindingLimit) (exec : KvOp → KvResult)
    (ops : List KvOp) :
    ∀ used, limit.max_total ≠ 0 → used ≤ limit.max_total →
      (kvRunCalls limit used exec ops).2 ≤ limit.max_total := by
  induction ops with
  | nil =>
    intro used _ hle
    exact hle
  | cons op ops ih =>
    intro used h0 hle
    show (kvRunCalls limit (kvGuardedCall limit used exec op).2 exec ops).2 ≤
      limit.max_total
    unfold kvGuardedCall
    split
    · exact ih used h0 hle
    · rename_i hn
      have hlt : used < limit.max_total := by
        rcases Nat.lt_or_ge used limit.max_total with h | h
        · exact h
        · exact absurd ⟨h0, h⟩ hn
      exact ih (used + 1) h0 hlt

/-- C7: under `BindingLimit{max_total := 2, max_concurrent := 1}`, three
sequential KV `Get` calls on one binding execute the first two and
reject the third with an explicit over-quota `Error`; in general the
cumulative call counter never exceeds a nonzero `max_total` (0 meaning
unlimited). -/
theorem kv_binding_limit_enforced (limit : BindingLimit) (used : Nat)
    (exec : KvOp → KvResult) (ops : List KvOp) (k1 k2 k3 : String) :
    (kvRunCalls (BindingLimit.new 2 1) 0 exec
        [KvOp.get k1, KvOp.get k2, KvOp.get k3]).1 =
      [exec (KvOp.get k1), exec (KvOp.get k2),
        KvResult.error "KV binding call limit exceeded"] ∧
    (limit.max_total ≠ 0 → used ≤ limit.max_total →
      (kvRunCalls limit used exec ops).2 ≤ limit.max_total) := by
  constructor
  · simp [kvRunCalls, kvGuardedCall, BindingLimit.new]
  · intro h0 hle
    exact kvRunCalls_le limit exec ops used h0 hle

/-- C7 witness: the guarded sequence of three `Get` calls at the
concrete limit keeps its counter within `max_total`. -/
theorem kv_binding_limit_enforced_witness :
    (kvRunCalls (BindingLimit.new 2 1) 0 (fun _ => KvResult.ok)
        [KvOp.get "a", KvOp.get "b", KvOp.get "c"]).2 ≤
      (BindingLimit.new 2 1).max_total :=
  (kv_binding_limit_enforced (BindingLimit.new 2 1) 0 (fun _ => KvResult.ok)
    [KvOp.get "a", KvOp.get "b", KvOp.get "c"] "a" "b" "c").2
    (by decide) (by decide)

end Openworkers
